import Mathlib

/-!
Verification of the client-side security core of the seed-track-flow app:
the attempt rate limiter (`src/hooks/useRateLimiter.tsx`) and the idle
session monitor (`useSessionTimeout`).

The TypeScript hooks are shallowly embedded as pure Lean functions over an
explicit state.  Timestamps and counters are `Int` (JavaScript `Date.now()`
values and counts are exact integers in the double range).  The React
`useState` map `attempts` and the browser `localStorage` entries for this
limiter's operation key become two finite maps `String → Option _`; a call
to an operation returns its result together with the successor state, with
queued `setAttempts` functional updates applied in order, matching React's
sequential processing of updater functions, while reads of the plain
`attempts` closure variable see the render-time snapshot.
-/

namespace SeedTrack

/-- Configuration of one rate limiter (`RateLimiterConfig` in the source). -/
structure RateLimiterConfig where
  maxAttempts : Int
  windowMs : Int
  blockDurationMs : Int
deriving DecidableEq, Repr

/-- One attempt record (`AttemptRecord` in the source).  `blockedUntil` is an
optional field in TypeScript; `none` models the field being absent. -/
structure AttemptRecord where
  count : Int
  firstAttempt : Int
  blocked : Bool
  blockedUntil : Option Int
deriving DecidableEq, Repr

/-- Content found in `localStorage` under this limiter's storage key for an
identifier: either a string that `JSON.parse` fails on (`malformed`), or a
serialized `AttemptRecord` (`JSON.stringify`/`JSON.parse` round-trips the
record, with an absent `blockedUntil` staying absent). -/
inductive StoredValue where
  | malformed
  | record (r : AttemptRecord)
deriving DecidableEq, Repr

/-- State of one limiter instance: the in-memory React map `attempts` and the
durable `localStorage` entries `rateLimit_<key>_<identifier>`, indexed here by
identifier (the operation key is fixed per instance, so identifiers address
disjoint storage keys). -/
structure LimiterState where
  attempts : String → Option AttemptRecord
  storage : String → Option StoredValue

/-- Point update of a finite map. -/
def setFn {α : Type} (f : String → Option α) (k : String) (v : Option α) :
    String → Option α :=
  fun j => if j = k then v else f j

/-- The state with no records anywhere. -/
def emptyState : LimiterState :=
  { attempts := fun _ => none, storage := fun _ => none }

/-- JavaScript truthiness of the guard `record.blockedUntil && now < record.blockedUntil`:
an absent field or the number `0` is falsy, so the comparison only happens for
a present, nonzero `blockedUntil`. -/
def buActive (bu : Option Int) (now : Int) : Bool :=
  match bu with
  | none => false
  | some v => decide (v ≠ 0) && decide (now < v)

/-- Truthiness-guarded expiry test `record.blockedUntil && now >= record.blockedUntil`. -/
def buExpired (bu : Option Int) (now : Int) : Bool :=
  match bu with
  | none => false
  | some v => decide (v ≠ 0) && decide (v ≤ now)

/-- The in-memory fallback check at the end of `isBlocked`:
`attempt.blocked && attempt.blockedUntil && now < attempt.blockedUntil`. -/
def memCheck (st : LimiterState) (now : Int) (id : String) : Bool :=
  match st.attempts id with
  | none => false
  | some a => a.blocked && buActive a.blockedUntil now

/-- `isBlocked(identifier)` from `useRateLimiter.tsx` (lines 19–55).
It first consults `localStorage`: an active stored block returns `true`; an
expired stored block is purged from both storage and the in-memory map and
returns `false`; a `JSON.parse` failure removes the stored entry; in the
remaining cases it falls through to the in-memory map check. -/
def isBlocked (st : LimiterState) (now : Int) (id : String) :
    Bool × LimiterState :=
  match st.storage id with
  | some StoredValue.malformed =>
    let st1 : LimiterState := { st with storage := setFn st.storage id none }
    (memCheck st1 now id, st1)
  | some (StoredValue.record parsed) =>
    if parsed.blocked && buActive parsed.blockedUntil now then
      (true, st)
    else if parsed.blocked && buExpired parsed.blockedUntil now then
      (false,
       { attempts := setFn st.attempts id none
         storage := setFn st.storage id none })
    else
      (memCheck st now id, st)
  | none => (memCheck st now id, st)

/-- `recordAttempt(identifier)` from `useRateLimiter.tsx` (lines 57–106).
Returns `false` immediately when `isBlocked` holds (keeping any state change
`isBlocked` itself made).  Otherwise the `setAttempts` updater runs on the
latest map: no record or an expired window starts a fresh record with
`count = 1`, `blocked = false`; otherwise the count is incremented and, when
it reaches `maxAttempts`, the record is blocked until `now + blockDurationMs`.
Both the map and `localStorage` receive the updated record. -/
def recordAttempt (cfg : RateLimiterConfig) (st : LimiterState) (now : Int)
    (id : String) : Bool × LimiterState :=
  let r := isBlocked st now id
  if r.1 then
    (false, r.2)
  else
    match r.2.attempts id with
    | none =>
      let newRecord : AttemptRecord :=
        { count := 1, firstAttempt := now, blocked := false, blockedUntil := none }
      (true,
       { attempts := setFn r.2.attempts id (some newRecord)
         storage := setFn r.2.storage id (some (StoredValue.record newRecord)) })
    | some existing =>
      if now - existing.firstAttempt > cfg.windowMs then
        let newRecord : AttemptRecord :=
          { count := 1, firstAttempt := now, blocked := false, blockedUntil := none }
        (true,
       { attempts := setFn r.2.attempts id (some newRecord)
         storage := setFn r.2.storage id (some (StoredValue.record newRecord)) })
      else
        let newCount := existing.count + 1
        if newCount ≥ cfg.maxAttempts then
          let blockedRecord : AttemptRecord :=
            { existing with
              count := newCount
              blocked := true
              blockedUntil := some (now + cfg.blockDurationMs) }
          (true,
       { attempts := setFn r.2.attempts id (some blockedRecord)
         storage := setFn r.2.storage id (some (StoredValue.record blockedRecord)) })
        else
          let updatedRecord : AttemptRecord := { existing with count := newCount }
          (true,
       { attempts := setFn r.2.attempts id (some updatedRecord)
         storage := setFn r.2.storage id (some (StoredValue.record updatedRecord)) })

/-- `getRemainingAttempts(identifier)` from `useRateLimiter.tsx`
(lines 108–120).  The record lookup reads the render-time `attempts`
snapshot (`st.attempts`), not the state as updated by the `isBlocked` call. -/
def getRemainingAttempts (cfg : RateLimiterConfig) (st : LimiterState)
    (now : Int) (id : String) : Int × LimiterState :=
  let r := isBlocked st now id
  if r.1 then
    (0, r.2)
  else
    match st.attempts id with
    | none => (cfg.maxAttempts, r.2)
    | some attempt =>
      if now - attempt.firstAttempt > cfg.windowMs then
        (cfg.maxAttempts, r.2)
      else
        (max 0 (cfg.maxAttempts - attempt.count), r.2)

/-- `getBlockedTimeRemaining(identifier)` from `useRateLimiter.tsx`
(lines 122–128).  It reads only the in-memory map (guarded by JavaScript
truthiness of `attempt.blockedUntil`) and performs no state change. -/
def getBlockedTimeRemaining (st : LimiterState) (now : Int) (id : String) :
    Int × LimiterState :=
  match st.attempts id with
  | none => (0, st)
  | some attempt =>
    match attempt.blockedUntil with
    | none => (0, st)
    | some v =>
      if attempt.blocked && decide (v ≠ 0) then (max 0 (v - now), st)
      else (0, st)

/-- `n` consecutive `recordAttempt` calls for `id`, all at time `now`
("quick succession"), starting from the empty state. -/
def callN (cfg : RateLimiterConfig) (now : Int) (id : String) : Nat → LimiterState
  | 0 => emptyState
  | n + 1 => (recordAttempt cfg (callN cfg now id n) now id).2

/-! ### Idle session monitor (`useSessionTimeout`)

The hook keeps two browser timers in refs (`warningRef`, `timeoutRef`).  We
embed timers by their absolute deadline: `setTimeout(f, d)` at clock time
`now` schedules the callback at `now + max 0 d` (the host clamps negative
delays to zero), `clearTimeout` drops the deadline, and the host event loop
invokes the callback of a still-pending timer exactly when the clock reaches
its deadline, consuming the timer.  A `fire…` function returning `some s'`
models the callback being invoked at that instant; `none` means no
invocation happens. -/

/-- Configuration of the monitor (`SessionTimeoutConfig` in the source).
`hasOnWarning` models whether the optional `onWarning` callback was
provided (`config.onWarning` truthiness). -/
structure SessionConfig where
  timeoutMs : Int
  warningMs : Int
  hasOnWarning : Bool
deriving DecidableEq, Repr

/-- State of one monitor: the `user` from `useAuth` (is a session
authenticated), `lastActivityRef`, and the pending timers' absolute
deadlines (`none` when cleared or never set). -/
structure MonitorState where
  userAuthed : Bool
  lastActivity : Int
  warningDeadline : Option Int
  timeoutDeadline : Option Int
deriving DecidableEq, Repr

/-- `resetTimer` from `useSessionTimeout` (also the body of `extendSession`
and of the activity handler): records the activity timestamp, clears both
timers, and — only when a user is authenticated — schedules the warning
callback after `timeoutMs - warningMs` (only if `onWarning` was provided)
and the timeout callback after `timeoutMs`. -/
def resetTimer (cfg : SessionConfig) (s : MonitorState) (now : Int) :
    MonitorState :=
  let cleared : MonitorState :=
    { s with lastActivity := now, warningDeadline := none, timeoutDeadline := none }
  if !s.userAuthed then
    cleared
  else
    { cleared with
      warningDeadline :=
        if cfg.hasOnWarning then some (now + max 0 (cfg.timeoutMs - cfg.warningMs))
        else none
      timeoutDeadline := some (now + max 0 cfg.timeoutMs) }

/-- The host event loop runs the pending warning timer's callback
(`config.onWarning?.()`) at clock time `t`: enabled exactly when the warning
deadline is `t`, and firing consumes the timer. -/
def fireWarning (s : MonitorState) (t : Int) : Option MonitorState :=
  if s.warningDeadline = some t then some { s with warningDeadline := none }
  else none

/-- The host event loop runs the pending timeout timer's callback
(`config.onTimeout()`) at clock time `t`. -/
def fireTimeout (s : MonitorState) (t : Int) : Option MonitorState :=
  if s.timeoutDeadline = some t then some { s with timeoutDeadline := none }
  else none

/-- Session teardown: the `useEffect` cleanup (and its `!user` branch) runs
when the user is no longer authenticated; it clears both timers via
`clearTimeout`. -/
def teardown (s : MonitorState) : MonitorState :=
  { s with userAuthed := false, warningDeadline := none, timeoutDeadline := none }

/-! ### Spec-level predicates on records -/

/-- A record that is an active block at `now`: blocked, with a present,
nonzero `blockedUntil` lying strictly in the future. -/
def activeRec (r : AttemptRecord) (now : Int) : Prop :=
  r.blocked = true ∧ ∃ v, r.blockedUntil = some v ∧ v ≠ 0 ∧ now < v

/-- A record that is an expired block at `now`: blocked, with a present,
nonzero `blockedUntil` that has already passed. -/
def expiredRec (r : AttemptRecord) (now : Int) : Prop :=
  r.blocked = true ∧ ∃ v, r.blockedUntil = some v ∧ v ≠ 0 ∧ v ≤ now

/-- A blocked record with a present, nonzero `blockedUntil` (the records for
which the truthiness-guarded storage branches of `isBlocked` are taken). -/
def blockedNZ (r : AttemptRecord) : Prop :=
  r.blocked = true ∧ ∃ v, r.blockedUntil = some v ∧ v ≠ 0

/-! ### Helper lemmas -/

lemma buActive_eq_true (bu : Option Int) (now : Int) :
    buActive bu now = true ↔ ∃ v, bu = some v ∧ v ≠ 0 ∧ now < v := by
  cases bu <;> simp [buActive]

lemma buExpired_eq_true (bu : Option Int) (now : Int) :
    buExpired bu now = true ↔ ∃ v, bu = some v ∧ v ≠ 0 ∧ v ≤ now := by
  cases bu <;> simp [buExpired]

lemma memCheck_eq_true (st : LimiterState) (now : Int) (id : String) :
    memCheck st now id = true ↔
      ∃ a, st.attempts id = some a ∧ activeRec a now := by
  cases h : st.attempts id with
  | none => simp [memCheck, h]
  | some a => simp [memCheck, h, activeRec, buActive_eq_true]

lemma setFn_self {α : Type} (f : String → Option α) (k : String) (v : Option α) :
    setFn f k v k = v := by
  simp [setFn]

lemma activeRec_bool {p : AttemptRecord} {now : Int} :
    (p.blocked && buActive p.blockedUntil now) = true ↔ activeRec p now := by
  simp [activeRec, buActive_eq_true]

lemma expiredRec_bool {p : AttemptRecord} {now : Int} :
    (p.blocked && buExpired p.blockedUntil now) = true ↔ expiredRec p now := by
  simp [expiredRec, buExpired_eq_true]

lemma storedRec_inj {st : LimiterState} {id : String} {r p : AttemptRecord}
    (hst : st.storage id = some (StoredValue.record p))
    (hr : st.storage id = some (StoredValue.record r)) : r = p := by
  rw [hst] at hr
  simpa using hr.symm

/-! ### Claim theorems -/

/-- C9: for every limiter state in which `isBlocked` is false and the record
seen by `recordAttempt`'s updater is absent or outside its window, the call
creates a fresh record with `count = 1` and `blocked = false` in both the
in-memory map and durable storage, returns `true`, and `isBlocked` stays
false at every time afterwards — the fresh-record branch never sets a block,
regardless of `maxAttempts` (in particular for `maxAttempts = 1`). -/
theorem c9_fresh_record_never_blocks (cfg : RateLimiterConfig)
    (st : LimiterState) (now : Int) (id : String)
    (hnb : (isBlocked st now id).1 = false)
    (hfresh : (isBlocked st now id).2.attempts id = none ∨
      ∃ e, (isBlocked st now id).2.attempts id = some e ∧
        now - e.firstAttempt > cfg.windowMs) :
    (recordAttempt cfg st now id).1 = true ∧
    (recordAttempt cfg st now id).2.attempts id =
      some ⟨1, now, false, none⟩ ∧
    (recordAttempt cfg st now id).2.storage id =
      some (StoredValue.record ⟨1, now, false, none⟩) ∧
    ∀ t, (isBlocked (recordAttempt cfg st now id).2 t id).1 = false := by
  have h1 : recordAttempt cfg st now id =
      (true,
       { attempts := setFn (isBlocked st now id).2.attempts id
           (some ⟨1, now, false, none⟩)
         storage := setFn (isBlocked st now id).2.storage id
           (some (StoredValue.record ⟨1, now, false, none⟩)) }) := by
    rcases hfresh with h | ⟨e, he, hwin⟩
    · simp [recordAttempt, hnb, h]
    · simp [recordAttempt, hnb, he, hwin]
  refine ⟨by simp [h1], by simp [h1, setFn_self], by simp [h1, setFn_self], ?_⟩
  intro t
  simp [h1, isBlocked, setFn_self, memCheck, buActive]

/-- C9 witness: with `maxAttempts = 1` and no existing record, a
`recordAttempt` call at time `0` leaves the identifier unblocked. -/
theorem c9_fresh_record_never_blocks_witness :
    (recordAttempt ⟨1, 10, 10⟩ emptyState 0 "u").1 = true ∧
    (isBlocked (recordAttempt ⟨1, 10, 10⟩ emptyState 0 "u").2 0 "u").1 = false := by
  have h := c9_fresh_record_never_blocks ⟨1, 10, 10⟩ emptyState 0 "u"
    (by decide) (Or.inl (by decide))
  exact ⟨h.1, h.2.2.2 0⟩

/-- C10: after a reload mid-window — the in-memory map is empty while
durable storage holds an unblocked record with `count ≥ 1` inside its
window — `getRemainingAttempts` returns the full `maxAttempts` rather than
`maxAttempts - count`, and the next `recordAttempt` starts a fresh record
with `count = 1` rather than incrementing: only blocks survive a reload. -/
theorem c10_only_blocks_survive_reload (cfg : RateLimiterConfig)
    (st : LimiterState) (now : Int) (id : String) (r : AttemptRecord)
    (hmem : st.attempts id = none)
    (hsto : st.storage id = some (StoredValue.record r))
    (hb : r.blocked = false)
    (hc : 1 ≤ r.count)
    (hwin : now - r.firstAttempt ≤ cfg.windowMs) :
    (getRemainingAttempts cfg st now id).1 = cfg.maxAttempts ∧
    (recordAttempt cfg st now id).1 = true ∧
    (recordAttempt cfg st now id).2.attempts id =
      some ⟨1, now, false, none⟩ ∧
    (recordAttempt cfg st now id).2.storage id =
      some (StoredValue.record ⟨1, now, false, none⟩) := by
  have hib : isBlocked st now id = (false, st) := by
    simp [isBlocked, hsto, hb, memCheck, hmem]
  refine ⟨?_, ?_, ?_, ?_⟩ <;>
    simp [getRemainingAttempts, recordAttempt, hib, hmem, setFn_self]

/-- C10 witness: a concrete post-reload state (stored unblocked record with
`count = 3` inside its window, empty in-memory map). -/
theorem c10_only_blocks_survive_reload_witness :
    (getRemainingAttempts ⟨5, 900000, 900000⟩
      ⟨fun _ => none,
       setFn (fun _ => none) "user" (some (StoredValue.record ⟨3, 0, false, none⟩))⟩
      100 "user").1 = 5 ∧
    (recordAttempt ⟨5, 900000, 900000⟩
      ⟨fun _ => none,
       setFn (fun _ => none) "user" (some (StoredValue.record ⟨3, 0, false, none⟩))⟩
      100 "user").2.attempts "user" = some ⟨1, 100, false, none⟩ := by
  have h := c10_only_blocks_survive_reload ⟨5, 900000, 900000⟩
    ⟨fun _ => none,
     setFn (fun _ => none) "user" (some (StoredValue.record ⟨3, 0, false, none⟩))⟩
    100 "user" ⟨3, 0, false, none⟩ rfl (by decide) rfl (by decide) (by decide)
  exact ⟨h.1, h.2.2.1⟩

/-- C6: `getRemainingAttempts` equals `maxAttempts - count` for an unblocked
in-window record (with `count ≤ maxAttempts`), `maxAttempts` when there is no
record or the window has expired, and `0` while blocked; and the concrete
sign-in scenario with config `{maxAttempts := 5, windowMs := 900000,
blockDurationMs := 900000}`: after 4 quick `recordAttempt('user')` calls
`isBlocked` is false and 1 attempt remains, after the 5th `isBlocked` is
true, 0 attempts remain and `getBlockedTimeRemaining` is 900000 ms. -/
theorem c6_remaining_attempts :
    (∀ (cfg : RateLimiterConfig) (st : LimiterState) (now : Int) (id : String)
        (a : AttemptRecord),
      (isBlocked st now id).1 = false →
      st.attempts id = some a →
      now - a.firstAttempt ≤ cfg.windowMs →
      a.count ≤ cfg.maxAttempts →
      (getRemainingAttempts cfg st now id).1 = cfg.maxAttempts - a.count) ∧
    (∀ (cfg : RateLimiterConfig) (st : LimiterState) (now : Int) (id : String),
      (isBlocked st now id).1 = false →
      (st.attempts id = none ∨
        ∃ a, st.attempts id = some a ∧ cfg.windowMs < now - a.firstAttempt) →
      (getRemainingAttempts cfg st now id).1 = cfg.maxAttempts) ∧
    (∀ (cfg : RateLimiterConfig) (st : LimiterState) (now : Int) (id : String),
      (isBlocked st now id).1 = true →
      (getRemainingAttempts cfg st now id).1 = 0) ∧
    ((isBlocked (callN ⟨5, 900000, 900000⟩ 1000 "user" 4) 1000 "user").1 = false ∧
     (getRemainingAttempts ⟨5, 900000, 900000⟩
        (callN ⟨5, 900000, 900000⟩ 1000 "user" 4) 1000 "user").1 = 1 ∧
     (isBlocked (callN ⟨5, 900000, 900000⟩ 1000 "user" 5) 1000 "user").1 = true ∧
     (getRemainingAttempts ⟨5, 900000, 900000⟩
        (callN ⟨5, 900000, 900000⟩ 1000 "user" 5) 1000 "user").1 = 0 ∧
     (getBlockedTimeRemaining
        (callN ⟨5, 900000, 900000⟩ 1000 "user" 5) 1000 "user").1 = 900000) := by
  refine ⟨?_, ?_, ?_, by decide⟩
  · intro cfg st now id a hnb ha hwin hcnt
    have hno : ¬ (now - a.firstAttempt > cfg.windowMs) := by omega
    have : (getRemainingAttempts cfg st now id).1 =
        max 0 (cfg.maxAttempts - a.count) := by
      simp [getRemainingAttempts, hnb, ha, hno]
    omega
  · intro cfg st now id hnb hout
    rcases hout with h | ⟨a, ha, hwin⟩
    · simp [getRemainingAttempts, hnb, h]
    · simp [getRemainingAttempts, hnb, ha, hwin]
  · intro cfg st now id hb
    simp [getRemainingAttempts, hb]

/-- C6 witness: part one of the theorem applied to the concrete state after
4 quick calls of the sign-in scenario. -/
theorem c6_remaining_attempts_witness :
    (getRemainingAttempts ⟨5, 900000, 900000⟩
      (callN ⟨5, 900000, 900000⟩ 1000 "user" 4) 1000 "user").1 = 5 - 4 :=
  c6_remaining_attempts.1 ⟨5, 900000, 900000⟩
    (callN ⟨5, 900000, 900000⟩ 1000 "user" 4) 1000 "user"
    ⟨4, 1000, false, none⟩ (by decide) (by decide) (by decide) (by decide)

/-- C5 counterexample: in the post-reload state where the blocking record
exists only in durable storage (empty in-memory map), `isBlocked` is true,
yet `getBlockedTimeRemaining` returns `0` instead of the claimed
`max 0 (blockedUntil - now) = 500`. -/
theorem c5_counterexample :
    (isBlocked
      ⟨fun _ => none,
       setFn (fun _ => none) "user"
         (some (StoredValue.record ⟨5, 0, true, some 1000⟩))⟩
      500 "user").1 = true ∧
    (getBlockedTimeRemaining
      ⟨fun _ => none,
       setFn (fun _ => none) "user"
         (some (StoredValue.record ⟨5, 0, true, some 1000⟩))⟩
      500 "user").1 = 0 ∧
    max 0 ((1000 : Int) - 500) ≠ 0 := by
  decide

/-- C5 (amended): `getBlockedTimeRemaining` consults only the in-memory
record and changes no state: it returns `max 0 (blockedUntil - now)` when
the in-memory record is blocked with a present nonzero `blockedUntil`, and
`0` in every other case — in particular it returns `0` in the post-reload
state where the block survives only in durable storage, even though
`isBlocked` is still true there. -/
theorem c5_blocked_time_from_memory_only (st : LimiterState) (now : Int)
    (id : String) :
    ((¬ ∃ a, st.attempts id = some a ∧ blockedNZ a) →
      (getBlockedTimeRemaining st now id).1 = 0) ∧
    (∀ a v, st.attempts id = some a → a.blocked = true →
      a.blockedUntil = some v → v ≠ 0 →
      (getBlockedTimeRemaining st now id).1 = max 0 (v - now)) ∧
    (getBlockedTimeRemaining st now id).2 = st := by
  refine ⟨?_, ?_, ?_⟩
  · intro hno
    cases ha : st.attempts id with
    | none => simp [getBlockedTimeRemaining, ha]
    | some a =>
      cases hbu : a.blockedUntil with
      | none => simp [getBlockedTimeRemaining, ha, hbu]
      | some v =>
        have : ¬ (a.blocked = true ∧ v ≠ 0) := by
          intro ⟨h1, h2⟩
          exact hno ⟨a, ha, h1, v, hbu, h2⟩
        by_cases hb : a.blocked = true
        · have hv : v = 0 := by tauto
          simp [getBlockedTimeRemaining, ha, hbu, hv]
        · simp [getBlockedTimeRemaining, ha, hbu,
            Bool.not_eq_true .. ▸ hb]
  · intro a v ha hb hbu hv
    simp [getBlockedTimeRemaining, ha, hbu, hb, hv]
  · cases ha : st.attempts id with
    | none => simp [getBlockedTimeRemaining, ha]
    | some a =>
      cases hbu : a.blockedUntil with
      | none => simp [getBlockedTimeRemaining, ha, hbu]
      | some v =>
        simp only [getBlockedTimeRemaining, ha, hbu]
        split <;> rfl

/-- C5 witness: the amended theorem applied to a state whose in-memory
record is an active block. -/
theorem c5_blocked_time_from_memory_only_witness :
    (getBlockedTimeRemaining
      ⟨setFn (fun _ => none) "u" (some ⟨5, 0, true, some 1000⟩), fun _ => none⟩
      400 "u").1 = max 0 (1000 - 400) :=
  (c5_blocked_time_from_memory_only
    ⟨setFn (fun _ => none) "u" (some ⟨5, 0, true, some 1000⟩), fun _ => none⟩
    400 "u").2.1 ⟨5, 0, true, some 1000⟩ 1000 (by decide) rfl rfl (by decide)

/-- C7 counterexample: a state with an active in-memory block and a
malformed durable entry for the same identifier.  `isBlocked` is true and
`recordAttempt` returns false, but the limiter state is not left unchanged:
the malformed durable entry has been discarded by the embedded `isBlocked`
check. -/
theorem c7_counterexample :
    (isBlocked
      ⟨setFn (fun _ => none) "u" (some ⟨3, 0, true, some 100⟩),
       setFn (fun _ => none) "u" (some StoredValue.malformed)⟩
      50 "u").1 = true ∧
    (⟨setFn (fun _ => none) "u" (some ⟨3, 0, true, some 100⟩),
      setFn (fun _ => none) "u" (some StoredValue.malformed)⟩ :
        LimiterState).storage "u" = some StoredValue.malformed ∧
    (recordAttempt ⟨5, 900000, 900000⟩
      ⟨setFn (fun _ => none) "u" (some ⟨3, 0, true, some 100⟩),
       setFn (fun _ => none) "u" (some StoredValue.malformed)⟩
      50 "u").1 = false ∧
    (recordAttempt ⟨5, 900000, 900000⟩
      ⟨setFn (fun _ => none) "u" (some ⟨3, 0, true, some 100⟩),
       setFn (fun _ => none) "u" (some StoredValue.malformed)⟩
      50 "u").2.storage "u" = none := by
  decide

/-- C7 (amended): when `isBlocked(identifier)` is true, `recordAttempt`
returns false and performs no mutation of its own — the resulting state is
exactly the state left by the embedded `isBlocked` check; whenever the
durable entry for the identifier is not malformed, that state is the
original state unchanged. -/
theorem c7_record_attempt_noop_when_blocked (cfg : RateLimiterConfig)
    (st : LimiterState) (now : Int) (id : String)
    (hb : (isBlocked st now id).1 = true) :
    recordAttempt cfg st now id = (false, (isBlocked st now id).2) ∧
    (st.storage id ≠ some StoredValue.malformed →
      (isBlocked st now id).2 = st) := by
  constructor
  · simp [recordAttempt, hb]
  · intro hnm
    cases hsto : st.storage id with
    | none => simp [isBlocked, hsto]
    | some v =>
      cases v with
      | malformed => exact absurd hsto hnm
      | record p =>
        by_cases h1 : (p.blocked && buActive p.blockedUntil now) = true
        · simp [isBlocked, hsto, h1]
        · by_cases h2 : (p.blocked && buExpired p.blockedUntil now) = true
          · have : (isBlocked st now id).1 = false := by
              simp [isBlocked, hsto, h1, h2]
            simp [this] at hb
          · simp [isBlocked, hsto, h1, h2]

/-- C7 witness: a state blocked purely in memory, with no durable entry —
`recordAttempt` returns false with the state unchanged. -/
theorem c7_record_attempt_noop_when_blocked_witness :
    recordAttempt ⟨5, 900000, 900000⟩
      ⟨setFn (fun _ => none) "u" (some ⟨3, 0, true, some 100⟩), fun _ => none⟩
      50 "u" =
    (false,
     (isBlocked
       ⟨setFn (fun _ => none) "u" (some ⟨3, 0, true, some 100⟩), fun _ => none⟩
       50 "u").2) :=
  (c7_record_attempt_noop_when_blocked ⟨5, 900000, 900000⟩
    ⟨setFn (fun _ => none) "u" (some ⟨3, 0, true, some 100⟩), fun _ => none⟩
    50 "u" (by decide)).1

/-- C8 counterexample: with a malformed durable entry and an empty in-memory
map, `getBlockedTimeRemaining` behaves as if no record existed but does not
discard the unreadable stored state — it never touches durable storage, so
the malformed entry is still there afterwards. -/
theorem c8_counterexample :
    (getBlockedTimeRemaining
      ⟨fun _ => none, setFn (fun _ => none) "u" (some StoredValue.malformed)⟩
      0 "u").1 = 0 ∧
    (getBlockedTimeRemaining
      ⟨fun _ => none, setFn (fun _ => none) "u" (some StoredValue.malformed)⟩
      0 "u").2.storage "u" = some StoredValue.malformed := by
  decide

/-- C8 (amended): a durable entry that fails to parse is treated as absence
of a record: `isBlocked`, `recordAttempt` and `getRemainingAttempts` return
exactly what they return on the state with the entry deleted, and
`isBlocked` (hence the operations that embed it) discards the unreadable
entry; `getBlockedTimeRemaining` also behaves as if no durable record
existed — it never reads durable storage — but leaves the malformed entry in
place.  No operation surfaces an error: all are total and return plain
values. -/
theorem c8_malformed_treated_as_absent (cfg : RateLimiterConfig)
    (st : LimiterState) (now : Int) (id : String)
    (h : st.storage id = some StoredValue.malformed) :
    isBlocked st now id =
      isBlocked { st with storage := setFn st.storage id none } now id ∧
    (isBlocked st now id).2.storage id = none ∧
    recordAttempt cfg st now id =
      recordAttempt cfg { st with storage := setFn st.storage id none } now id ∧
    getRemainingAttempts cfg st now id =
      getRemainingAttempts cfg { st with storage := setFn st.storage id none }
        now id ∧
    (getBlockedTimeRemaining st now id).1 =
      (getBlockedTimeRemaining { st with storage := setFn st.storage id none }
        now id).1 ∧
    (getBlockedTimeRemaining st now id).2 = st := by
  have key : isBlocked st now id =
      isBlocked { st with storage := setFn st.storage id none } now id := by
    simp [isBlocked, h, setFn_self, memCheck]
  refine ⟨key, ?_, ?_, ?_, ?_, ?_⟩
  · simp [isBlocked, h, setFn_self]
  · simp only [recordAttempt, key]
  · simp only [getRemainingAttempts, key]
  · cases ha : st.attempts id with
    | none => simp [getBlockedTimeRemaining, ha]
    | some a =>
      cases hbu : a.blockedUntil with
      | none => simp [getBlockedTimeRemaining, ha, hbu]
      | some v =>
        simp only [getBlockedTimeRemaining, ha, hbu]
        split <;> rfl
  · cases ha : st.attempts id with
    | none => simp [getBlockedTimeRemaining, ha]
    | some a =>
      cases hbu : a.blockedUntil with
      | none => simp [getBlockedTimeRemaining, ha, hbu]
      | some v =>
        simp only [getBlockedTimeRemaining, ha, hbu]
        split <;> rfl

/-- C8 witness: the amended theorem applied to a concrete malformed-entry
state: `isBlocked` agrees with the entry-deleted state and purges the
entry. -/
theorem c8_malformed_treated_as_absent_witness :
    (isBlocked
      ⟨fun _ => none, setFn (fun _ => none) "u" (some StoredValue.malformed)⟩
      0 "u").2.storage "u" = none :=
  (c8_malformed_treated_as_absent ⟨5, 900000, 900000⟩
    ⟨fun _ => none, setFn (fun _ => none) "u" (some StoredValue.malformed)⟩
    0 "u" (by decide)).2.1

/-- C2 counterexample: a state whose in-memory map holds an active block
while durable storage holds nothing.  `isBlocked` returns true although no
stored record for the identifier exists, refuting "returns true iff a
stored record exists with `blocked == true` and `now < blockedUntil`". -/
theorem c2_counterexample :
    (isBlocked
      ⟨setFn (fun _ => none) "user" (some ⟨5, 0, true, some 100⟩),
       fun _ => none⟩
      50 "user").1 = true ∧
    (⟨setFn (fun _ => none) "user" (some ⟨5, 0, true, some 100⟩),
      fun _ => none⟩ : LimiterState).storage "user" = none := by
  decide

/-- C2 (amended): for every limiter state, `isBlocked` returns true iff
either the stored record is an active block (blocked, with a present
nonzero `blockedUntil` and `now < blockedUntil`), or the stored record is
not a blocked record with a present nonzero `blockedUntil` and the
in-memory record is an active block (the in-memory fallback the original
claim omits); and whenever the stored record is an expired block (blocked,
present nonzero `blockedUntil`, `now ≥ blockedUntil`), `isBlocked` purges
both the stored and the in-memory record and returns false. -/
theorem c2_is_blocked_characterization (st : LimiterState) (now : Int)
    (id : String) :
    ((isBlocked st now id).1 = true ↔
      (∃ r, st.storage id = some (StoredValue.record r) ∧ activeRec r now) ∨
      ((¬ ∃ r, st.storage id = some (StoredValue.record r) ∧ blockedNZ r) ∧
        ∃ a, st.attempts id = some a ∧ activeRec a now)) ∧
    (∀ r, st.storage id = some (StoredValue.record r) → expiredRec r now →
      (isBlocked st now id).1 = false ∧
      (isBlocked st now id).2.storage id = none ∧
      (isBlocked st now id).2.attempts id = none) := by
  cases hst : st.storage id with
  | none =>
    refine ⟨?_, ?_⟩
    · simp [isBlocked, hst, memCheck_eq_true]
    · intro r hr
      exact absurd hr (by simp)
  | some v =>
    cases v with
    | malformed =>
      refine ⟨?_, ?_⟩
      · simp [isBlocked, hst, memCheck_eq_true]
      · intro r hr
        exact absurd hr (by simp)
    | record p =>
      by_cases h1 : (p.blocked && buActive p.blockedUntil now) = true
      · have hact : activeRec p now := activeRec_bool.mp h1
        have hres : (isBlocked st now id).1 = true := by
          simp [isBlocked, hst, h1]
        refine ⟨⟨fun _ => Or.inl ⟨p, rfl, hact⟩, fun _ => hres⟩, ?_⟩
        intro r hr hexp
        have hrp : r = p := by simpa using hr.symm
        subst hrp
        exfalso
        rcases hact with ⟨-, v, hv, -, hlt⟩
        rcases hexp with ⟨-, w, hw, -, hle⟩
        rw [hv] at hw
        have : v = w := by simpa using hw
        omega
      · by_cases h2 : (p.blocked && buExpired p.blockedUntil now) = true
        · have hres : (isBlocked st now id).1 = false := by
            simp [isBlocked, hst, h1, h2]
          have hnz : blockedNZ p := by
            rcases expiredRec_bool.mp h2 with ⟨hb, v, hv, h0, -⟩
            exact ⟨hb, v, hv, h0⟩
          refine ⟨?_, ?_⟩
          · refine iff_of_false (by simp [hres]) ?_
            rintro (⟨r, hr, hact⟩ | ⟨hno, -⟩)
            · have hrp : r = p := by simpa using hr.symm
              subst hrp
              exact h1 (activeRec_bool.mpr hact)
            · exact hno ⟨p, rfl, hnz⟩
          · intro r hr hexp
            refine ⟨hres, ?_, ?_⟩ <;>
              simp [isBlocked, hst, h1, h2, setFn_self]
        · have hres : (isBlocked st now id).1 = memCheck st now id := by
            simp [isBlocked, hst, h1, h2]
          have hnnz : ¬ blockedNZ p := by
            rintro ⟨hb, v, hv, h0⟩
            by_cases hc : now < v
            · exact h1 (activeRec_bool.mpr ⟨hb, v, hv, h0, hc⟩)
            · exact h2 (expiredRec_bool.mpr ⟨hb, v, hv, h0, by omega⟩)
          refine ⟨?_, ?_⟩
          · rw [hres, memCheck_eq_true]
            constructor
            · intro hm
              refine Or.inr ⟨?_, hm⟩
              rintro ⟨r, hr, hnz⟩
              have hrp : r = p := by simpa using hr.symm
              subst hrp
              exact hnnz hnz
            · rintro (⟨r, hr, hact⟩ | ⟨-, hm⟩)
              · have hrp : r = p := by simpa using hr.symm
                subst hrp
                exact absurd (activeRec_bool.mpr hact) h1
              · exact hm
          · intro r hr hexp
            have hrp : r = p := by simpa using hr.symm
            subst hrp
            exact absurd ⟨hexp.1, hexp.2.choose, hexp.2.choose_spec.1,
              hexp.2.choose_spec.2.1⟩ hnnz

/-- C2 witness: the purge clause applied to a concrete state holding an
expired stored block: `isBlocked` returns false and deletes the record from
both stores. -/
theorem c2_is_blocked_characterization_witness :
    (isBlocked
      ⟨fun _ => none,
       setFn (fun _ => none) "u" (some (StoredValue.record ⟨5, 0, true, some 10⟩))⟩
      10 "u").1 = false ∧
    (isBlocked
      ⟨fun _ => none,
       setFn (fun _ => none) "u" (some (StoredValue.record ⟨5, 0, true, some 10⟩))⟩
      10 "u").2.storage "u" = none ∧
    (isBlocked
      ⟨fun _ => none,
       setFn (fun _ => none) "u" (some (StoredValue.record ⟨5, 0, true, some 10⟩))⟩
      10 "u").2.attempts "u" = none :=
  (c2_is_blocked_characterization
    ⟨fun _ => none,
     setFn (fun _ => none) "u" (some (StoredValue.record ⟨5, 0, true, some 10⟩))⟩
    10 "u").2 ⟨5, 0, true, some 10⟩ (by decide)
    ⟨rfl, 10, rfl, by decide, by decide⟩

/-- Invariant of the quick-succession run below the blocking threshold:
after `n` calls (`1 ≤ n < maxAttempts`) both stores hold the unblocked
record `⟨n, now, false, none⟩`. -/
lemma callN_unblocked (cfg : RateLimiterConfig) (now : Int) (id : String)
    (hW : 0 ≤ cfg.windowMs) :
    ∀ n : Nat, 1 ≤ n → (n : Int) < cfg.maxAttempts →
      (callN cfg now id n).attempts id = some ⟨(n : Int), now, false, none⟩ ∧
      (callN cfg now id n).storage id =
        some (StoredValue.record ⟨(n : Int), now, false, none⟩) := by
  intro n
  induction n with
  | zero => intro h1 _; exact absurd h1 (by omega)
  | succ k ih =>
    intro h1 h2
    by_cases hk : k = 0
    · subst hk
      constructor <;>
        simp [callN, recordAttempt, emptyState, isBlocked, memCheck, setFn_self]
    · have hk1 : 1 ≤ k := by omega
      have hk2 : (k : Int) < cfg.maxAttempts := by
        have : ((k : Int) + 1) < cfg.maxAttempts := by exact_mod_cast h2
        omega
      obtain ⟨ha, hs⟩ := ih hk1 hk2
      have hib : isBlocked (callN cfg now id k) now id =
          (false, callN cfg now id k) := by
        simp [isBlocked, hs, memCheck, ha]
      have hnw : ¬ cfg.windowMs < 0 := by omega
      have hnm : ¬ ((k : Int) + 1 ≥ cfg.maxAttempts) := by
        have : ((k : Int) + 1) < cfg.maxAttempts := by exact_mod_cast h2
        omega
      constructor <;>
        simp [callN, recordAttempt, hib, ha, hnw, hnm, setFn_self]

/-- The `maxAttempts`-th quick-succession call blocks: both stores then hold
the blocked record with `blockedUntil = now + blockDurationMs`. -/
lemma callN_blocked (cfg : RateLimiterConfig) (now : Int) (id : String)
    (hW : 0 ≤ cfg.windowMs) (hM : 2 ≤ cfg.maxAttempts) :
    (callN cfg now id cfg.maxAttempts.toNat).attempts id =
      some ⟨cfg.maxAttempts, now, true, some (now + cfg.blockDurationMs)⟩ ∧
    (callN cfg now id cfg.maxAttempts.toNat).storage id =
      some (StoredValue.record
        ⟨cfg.maxAttempts, now, true, some (now + cfg.blockDurationMs)⟩) := by
  set k := cfg.maxAttempts.toNat - 1 with hkdef
  have hm0 : cfg.maxAttempts.toNat = k + 1 := by omega
  have hk1 : 1 ≤ k := by omega
  have hkcast : (k : Int) = cfg.maxAttempts - 1 := by omega
  have hklt : (k : Int) < cfg.maxAttempts := by omega
  obtain ⟨ha, hs⟩ := callN_unblocked cfg now id hW k hk1 hklt
  have hib : isBlocked (callN cfg now id k) now id =
      (false, callN cfg now id k) := by
    simp [isBlocked, hs, memCheck, ha]
  have hnw : ¬ cfg.windowMs < 0 := by omega
  have hge : (k : Int) + 1 ≥ cfg.maxAttempts := by omega
  rw [hm0]
  constructor <;>
    · simp [callN, recordAttempt, hib, ha, hnw, hge, setFn_self]
      omega

/-- C1 counterexample: with `maxAttempts = 1` (config
`{maxAttempts := 1, windowMs := 900000, blockDurationMs := 900000}`),
after the call count reaches `maxAttempts` (one call, no elapsed time),
`isBlocked` is still false — the fresh-record branch never blocks. -/
theorem c1_counterexample :
    (isBlocked (callN ⟨1, 900000, 900000⟩ 0 "user" 1) 0 "user").1 = false := by
  decide

/-- C1 (amended): for every configuration with `maxAttempts ≥ 2`,
nonnegative `windowMs`, positive `blockDurationMs` and a nonnegative clock,
once a quick-succession run (no elapsed time between calls) reaches
`maxAttempts` calls, `isBlocked` returns true at the blocking instant and at
every later time strictly before `blockDurationMs` has elapsed.  (For
`maxAttempts ≤ 1` the first call takes the fresh-record branch, which never
blocks, so the original unrestricted claim fails.) -/
theorem c1_blocked_after_max_attempts (cfg : RateLimiterConfig)
    (now t : Int) (id : String)
    (hnow : 0 ≤ now) (hW : 0 ≤ cfg.windowMs) (hM : 2 ≤ cfg.maxAttempts)
    (hD : 1 ≤ cfg.blockDurationMs)
    (ht1 : now ≤ t) (ht2 : t < now + cfg.blockDurationMs) :
    (isBlocked (callN cfg now id cfg.maxAttempts.toNat) t id).1 = true := by
  obtain ⟨-, hs⟩ := callN_blocked cfg now id hW hM
  have hcond : buActive (some (now + cfg.blockDurationMs)) t = true := by
    simp [buActive]
    omega
  simp [isBlocked, hs, hcond]

/-- C1 witness: config `{maxAttempts := 2, windowMs := 10,
blockDurationMs := 10}`, two calls at time `0`, queried at time `5`. -/
theorem c1_blocked_after_max_attempts_witness :
    (isBlocked (callN ⟨2, 10, 10⟩ 0 "u" (Int.toNat 2)) 5 "u").1 = true :=
  c1_blocked_after_max_attempts ⟨2, 10, 10⟩ 0 5 "u" (by decide) (by decide)
    (by decide) (by decide) (by decide) (by decide)

/-- C3: with an authenticated user, a provided warning callback and
`0 ≤ warningMs ≤ timeoutMs`, after a reset at `t0` with no further activity:
the warning callback can be invoked exactly at `t0 + (timeoutMs - warningMs)`
and at no other instant; once it has fired it cannot fire again in this idle
period; the timeout callback can be invoked exactly at `t0 + timeoutMs` and
at no other instant, and only once; and a later reset (before the scheduled
instants or not) cancels the pending invocations scheduled from `t0`. -/
theorem c3_warning_and_timeout_fire_once_on_schedule (cfg : SessionConfig)
    (s : MonitorState) (t0 : Int)
    (hu : s.userAuthed = true) (hw : cfg.hasOnWarning = true)
    (h0 : 0 ≤ cfg.warningMs) (h1 : cfg.warningMs ≤ cfg.timeoutMs) :
    (∀ t, (fireWarning (resetTimer cfg s t0) t).isSome = true ↔
      t = t0 + (cfg.timeoutMs - cfg.warningMs)) ∧
    (∀ t t' s2, fireWarning (resetTimer cfg s t0) t = some s2 →
      fireWarning s2 t' = none) ∧
    (∀ t, (fireTimeout (resetTimer cfg s t0) t).isSome = true ↔
      t = t0 + cfg.timeoutMs) ∧
    (∀ t t' s2, fireTimeout (resetTimer cfg s t0) t = some s2 →
      fireTimeout s2 t' = none) ∧
    (∀ t1, t0 < t1 →
      fireWarning (resetTimer cfg (resetTimer cfg s t0) t1)
        (t0 + (cfg.timeoutMs - cfg.warningMs)) = none ∧
      fireTimeout (resetTimer cfg (resetTimer cfg s t0) t1)
        (t0 + cfg.timeoutMs) = none) := by
  have e1 : max 0 (cfg.timeoutMs - cfg.warningMs) = cfg.timeoutMs - cfg.warningMs := by
    omega
  have e2 : max 0 cfg.timeoutMs = cfg.timeoutMs := by omega
  refine ⟨?_, ?_, ?_, ?_, ?_⟩
  · intro t
    simp [resetTimer, hu, hw, fireWarning, e1]
    omega
  · intro t t' s2 h
    simp only [fireWarning] at h ⊢
    split at h
    · cases h
      simp
    · exact absurd h (by simp)
  · intro t
    simp [resetTimer, hu, fireTimeout, e2]
    omega
  · intro t t' s2 h
    simp only [fireTimeout] at h ⊢
    split at h
    · cases h
      simp
    · exact absurd h (by simp)
  · intro t1 ht
    constructor
    · simp [resetTimer, hu, hw, fireWarning, e1]
      omega
    · simp [resetTimer, hu, hw, fireTimeout, e2]
      omega

/-- C3 witness: the sign-in scenario configuration
(`timeoutMs = 1800000`, `warningMs = 120000`), reset at `t0 = 0`: the
warning timer is enabled exactly at `t = 1680000`. -/
theorem c3_warning_and_timeout_fire_once_on_schedule_witness :
    (fireWarning (resetTimer ⟨1800000, 120000, true⟩
      ⟨true, 0, none, none⟩ 0) 1680000).isSome = true ↔
    (1680000 : Int) = 0 + (1800000 - 120000) :=
  (c3_warning_and_timeout_fire_once_on_schedule ⟨1800000, 120000, true⟩
    ⟨true, 0, none, none⟩ 0 rfl rfl (by decide) (by decide)).1 1680000

/-- C4: after a reset at `t1`, a warning (resp. timeout) invocation is only
possible at the instant scheduled by that latest reset — and only when a
user was authenticated and the warning callback provided — so triggers
scheduled by an earlier reset at `t0 ≠ t1` never fire; and after teardown
(session end) neither callback can be invoked at any instant. -/
theorem c4_stale_triggers_never_fire (cfg : SessionConfig)
    (s : MonitorState) (t1 : Int) :
    (∀ t, (fireWarning (resetTimer cfg s t1) t).isSome = true →
      s.userAuthed = true ∧ cfg.hasOnWarning = true ∧
      t = t1 + max 0 (cfg.timeoutMs - cfg.warningMs)) ∧
    (∀ t, (fireTimeout (resetTimer cfg s t1) t).isSome = true →
      s.userAuthed = true ∧ t = t1 + max 0 cfg.timeoutMs) ∧
    (∀ t0, t0 ≠ t1 →
      fireWarning (resetTimer cfg s t1)
        (t0 + max 0 (cfg.timeoutMs - cfg.warningMs)) = none ∧
      fireTimeout (resetTimer cfg s t1) (t0 + max 0 cfg.timeoutMs) = none) ∧
    (∀ t, fireWarning (teardown s) t = none ∧
      fireTimeout (teardown s) t = none) := by
  refine ⟨?_, ?_, ?_, ?_⟩
  · intro t
    cases hu : s.userAuthed
    · simp [resetTimer, hu, fireWarning]
    · cases hw : cfg.hasOnWarning
      · simp [resetTimer, hu, hw, fireWarning]
      · simp [resetTimer, hu, hw, fireWarning]
        omega
  · intro t
    cases hu : s.userAuthed
    · simp [resetTimer, hu, fireTimeout]
    · simp [resetTimer, hu, fireTimeout]
      omega
  · intro t0 ht
    cases hu : s.userAuthed
    · simp [resetTimer, hu, fireWarning, fireTimeout]
    · cases hw : cfg.hasOnWarning
      · constructor
        · simp [resetTimer, hu, hw, fireWarning]
        · simp [resetTimer, hu, hw, fireTimeout]
          omega
      · constructor
        · simp [resetTimer, hu, hw, fireWarning]
          omega
        · simp [resetTimer, hu, hw, fireTimeout]
          omega
  · intro t
    constructor <;> simp [teardown, fireWarning, fireTimeout]

/-- C4 witness: after a reset at `t1 = 0`, the instants an earlier reset at
`t0 = 5 ≠ 0` would have scheduled cannot fire. -/
theorem c4_stale_triggers_never_fire_witness :
    fireWarning
      (resetTimer ⟨1800000, 120000, true⟩ ⟨true, 0, some 99, some 100⟩ 0)
      (5 + max 0 ((1800000 : Int) - 120000)) = none ∧
    fireTimeout
      (resetTimer ⟨1800000, 120000, true⟩ ⟨true, 0, some 99, some 100⟩ 0)
      (5 + max 0 (1800000 : Int)) = none :=
  (c4_stale_triggers_never_fire ⟨1800000, 120000, true⟩
    ⟨true, 0, some 99, some 100⟩ 0).2.2.1 5 (by decide)

end SeedTrack
